import Mathlib

/-!
Shallow embedding of the todo-lits application: the Express backend
(`backend/index.js`) and the part of the React client (`frontend/src/App.jsx`)
that drives the toggle-complete flow.

The MySQL table `todos (id, title, description, completed, created_at)` is
modelled as a list of rows together with the AUTO_INCREMENT counter and a
logical clock supplying `CURRENT_TIMESTAMP` values.  Each SQL statement the
backend issues through `pool.query` is modelled as a pure function on this
state.  A raised driver error is modelled by an injected fault schedule: one
optional error message per query a handler executes, consumed in order;
`some e` makes that query raise the message `e`, which the handler's
`try/catch` turns into the 500 response of the source.
-/

/-- Whitespace as JS `String.prototype.trim` removes it, restricted to the
ASCII whitespace characters that can occur in the requests at issue. -/
def isJsWhitespace (c : Char) : Bool :=
  c == ' ' || c == '\t' || c == '\n' || c == '\r' ||
  c == Char.ofNat 11 || c == Char.ofNat 12

/-- JS `s.trim()`: strip leading and trailing whitespace. -/
def jsTrim (s : String) : String :=
  ⟨((s.data.dropWhile isJsWhitespace).reverse.dropWhile isJsWhitespace).reverse⟩

/-- `origin` ends with `suffix`, as the end-anchored regexes of the cors
allow-list test it. -/
def strEndsWith (origin suffix : String) : Bool :=
  suffix.data.isSuffixOf origin.data

/-- A row of the `todos` table.  `description` is a nullable TEXT column,
`completed` a BOOLEAN defaulting to false, `created_at` a timestamp set once
at insertion. -/
structure Todo where
  id : Nat
  title : String
  description : Option String
  completed : Bool
  created_at : Nat
deriving DecidableEq, Repr

/-- The stored state: the rows of the `todos` table, the next AUTO_INCREMENT
id, and the clock that supplies `CURRENT_TIMESTAMP` for `created_at`. -/
structure DB where
  rows : List Todo
  nextId : Nat
  clock : Nat
deriving DecidableEq, Repr

/-- The ordering used by `ORDER BY created_at DESC`: `a` comes before `b`
when `a.created_at ≥ b.created_at`. -/
def createdDesc (a b : Todo) : Prop := b.created_at ≤ a.created_at

instance : DecidableRel createdDesc := fun a b => Nat.decLe b.created_at a.created_at

instance : IsTotal Todo createdDesc := ⟨fun a b => Nat.le_total b.created_at a.created_at⟩

instance : IsTrans Todo createdDesc := ⟨fun _ _ _ h1 h2 => Nat.le_trans h2 h1⟩

/-- `SELECT * FROM todos ORDER BY created_at DESC`. -/
def selectAllOrderedDesc (db : DB) : List Todo :=
  db.rows.insertionSort createdDesc

/-- `SELECT * FROM todos WHERE id = ?`. -/
def selectById (db : DB) (id : Nat) : List Todo :=
  db.rows.filter (fun r => decide (r.id = id))

/-- `INSERT INTO todos (title, description) VALUES (?, ?)`: `completed` and
`created_at` take their column defaults, `id` the AUTO_INCREMENT value, which
is returned as `insertId`.  `mkRow` is the row such an insert creates. -/
def mkRow (db : DB) (title : String) (desc : Option String) : Todo :=
  { id := db.nextId, title := title, description := desc,
    completed := false, created_at := db.clock }

def insertTodo (db : DB) (title : String) (desc : Option String) : DB × Nat :=
  ({ rows := db.rows ++ [mkRow db title desc],
     nextId := db.nextId + 1, clock := db.clock + 1 }, db.nextId)

/-- `UPDATE todos SET title = ?, description = ?, completed = ? WHERE id = ?`.
mysql2's default connection flags include CLIENT_FOUND_ROWS, so the
`affectedRows` the program reads counts the rows the WHERE clause matched,
whether or not their stored value changed. -/
def updateById (db : DB) (id : Nat) (t : String) (d : Option String) (c : Bool) :
    DB × Nat :=
  let upd : Todo → Todo := fun r =>
    if r.id = id then { r with title := t, description := d, completed := c } else r
  ({ db with rows := db.rows.map upd },
   (db.rows.filter (fun r => decide (r.id = id))).length)

/-- `DELETE FROM todos WHERE id = ?`; `affectedRows` is the number of rows
deleted. -/
def deleteById (db : DB) (id : Nat) : DB × Nat :=
  ({ db with rows := db.rows.filter (fun r => decide (r.id ≠ id)) },
   (db.rows.filter (fun r => decide (r.id = id))).length)

/-- The JSON body of a response, as the handlers shape it. -/
inductive RespBody where
  | todos (ts : List Todo)
  | todo (t : Todo)
  | errMsg (error : String) (details : Option String)
  | statusInfo
  | empty
  | undef
deriving DecidableEq, Repr

/-- The `details` field of an error body, when present. -/
def RespBody.detailsOf : RespBody → Option String
  | .errMsg _ d => d
  | _ => none

structure Response where
  status : Nat
  body : RespBody
deriving DecidableEq, Repr

/-- Handler of `GET /api/todos` (index.js lines 122-135). -/
def getTodos (db : DB) (faults : List (Option String)) : Response × DB :=
  match faults.headD none with
  | some e => (⟨500, .errMsg "Error al obtener tareas" (some e)⟩, db)
  | none => (⟨200, .todos (selectAllOrderedDesc db)⟩, db)

/-- JS `description?.trim() || null`: the description a create request stores.
An absent or null field gives NULL, and so does a present string that trims
to the empty string, because `''` is falsy. -/
def descOrNull : Option String → Option String
  | none => none
  | some d => if jsTrim d = "" then none else some (jsTrim d)

/-- Handler of `POST /api/todos` (index.js lines 138-168); the `title` field
of the request body is absent or a string. -/
def postTodos (db : DB) (title? : Option String) (desc? : Option String)
    (faults : List (Option String)) : Response × DB :=
  match title? with
  | none => (⟨400, .errMsg "El título es requerido" none⟩, db)
  | some title =>
    if jsTrim title = "" then
      (⟨400, .errMsg "El título es requerido" none⟩, db)
    else
      match faults.headD none with
      | some e => (⟨500, .errMsg "Error al crear tarea" (some e)⟩, db)
      | none =>
        let (db1, insertId) := insertTodo db (jsTrim title) (descOrNull desc?)
        match (faults.drop 1).headD none with
        | some e => (⟨500, .errMsg "Error al crear tarea" (some e)⟩, db1)
        | none =>
          match selectById db1 insertId with
          | t :: _ => (⟨201, .todo t⟩, db1)
          | [] => (⟨201, .undef⟩, db1)

/-- Handler of `PUT /api/todos/:id` (index.js lines 171-199); the body fields
`{title, description, completed}` are written as given, with no validation. -/
def putTodo (db : DB) (id : Nat) (title : String) (desc : Option String)
    (completed : Bool) (faults : List (Option String)) : Response × DB :=
  match faults.headD none with
  | some e => (⟨500, .errMsg "Error al actualizar tarea" (some e)⟩, db)
  | none =>
    let (db1, affected) := updateById db id title desc completed
    if affected = 0 then
      (⟨404, .errMsg "Tarea no encontrada" none⟩, db1)
    else
      match (faults.drop 1).headD none with
      | some e => (⟨500, .errMsg "Error al actualizar tarea" (some e)⟩, db1)
      | none =>
        match selectById db1 id with
        | t :: _ => (⟨200, .todo t⟩, db1)
        | [] => (⟨200, .undef⟩, db1)

/-- Handler of `DELETE /api/todos/:id` (index.js lines 202-222). -/
def deleteTodo (db : DB) (id : Nat) (faults : List (Option String)) : Response × DB :=
  match faults.headD none with
  | some e => (⟨500, .errMsg "Error al eliminar tarea" (some e)⟩, db)
  | none =>
    let (db1, affected) := deleteById db id
    if affected = 0 then
      (⟨404, .errMsg "Tarea no encontrada" none⟩, db1)
    else
      (⟨204, .empty⟩, db1)

/-- An entry of the `allowedOrigins` list of `corsOptions.origin`: either an
exact string or a regex of the form `/\.domain\.app$/`, which matches exactly
the strings ending in that suffix. -/
inductive OriginRule where
  | exact (s : String)
  | suffix (s : String)
deriving DecidableEq, Repr

/-- The `allowedOrigins` list (index.js lines 16-22). -/
def allowedOrigins : List OriginRule :=
  [.exact "http://localhost:5173", .exact "http://localhost:3000",
   .exact "https://todo-lits.onrender.com",
   .suffix ".netlify.app", .suffix ".vercel.app"]

/-- One step of the `allowedOrigins.some(...)` check (index.js lines 31-43). -/
def matchesRule (origin : String) : OriginRule → Bool
  | .exact s => origin == s
  | .suffix s => strEndsWith origin s

/-- The `corsOptions.origin` callback as a pure function of the request's
Origin header: `true` exactly when the callback answers `callback(null, true)`
(index.js lines 14-52). -/
def corsOriginAllowed : Option String → Bool
  | none => true
  | some origin => allowedOrigins.any (matchesRule origin)

/-- The spec's proposed pure function `isOriginAllowed(origin) -> bool`,
written from the spec's words (design note of section 9) for comparison with
`corsOriginAllowed`. -/
def isOriginAllowed : Option String → Bool
  | none => true
  | some o =>
    o == "http://localhost:5173" || o == "http://localhost:3000" ||
    o == "https://todo-lits.onrender.com" ||
    strEndsWith o ".netlify.app" || strEndsWith o ".vercel.app"

/-- A request to one of the five API routes. -/
inductive ApiRequest where
  | health
  | list
  | create (title? desc? : Option String)
  | update (id : Nat) (title : String) (desc : Option String) (completed : Bool)
  | remove (id : Nat)
deriving DecidableEq, Repr

/-- Route dispatch to the five handlers. -/
def dispatch (req : ApiRequest) (db : DB) (faults : List (Option String)) :
    Response × DB :=
  match req with
  | .health => (⟨200, .statusInfo⟩, db)
  | .list => getTodos db faults
  | .create t d => postTodos db t d faults
  | .update id t d c => putTodo db id t d c faults
  | .remove id => deleteTodo db id faults

/-- Outcome of a request at the server boundary: either the cors middleware
rejects it, or a handler produces a response. -/
inductive ServeResult where
  | rejected (reason : String)
  | handled (resp : Response)
deriving DecidableEq, Repr

/-- `app.use(cors(corsOptions))` is registered before every route, so a
disallowed origin makes the middleware fail with `Error('Not allowed by
CORS')` and the request never reaches a handler. -/
def serve (origin : Option String) (req : ApiRequest) (db : DB)
    (faults : List (Option String)) : ServeResult × DB :=
  if corsOriginAllowed origin then
    let (resp, db1) := dispatch req db faults
    (.handled resp, db1)
  else
    (.rejected "Not allowed by CORS", db)

/-- The client's toggle-complete action (App.jsx lines 136-158): for a row it
holds, the PUT it issues sends the row's own title and description with the
negated `completed` flag. -/
def toggleCompleteRequest (t : Todo) : ApiRequest :=
  .update t.id t.title t.description (!t.completed)

/-- Invariants the storage maintains for the `todos` table: `id` is an
AUTO_INCREMENT primary key, so row ids are distinct and below the counter. -/
def DB.Wf (db : DB) : Prop :=
  (db.rows.map Todo.id).Nodup ∧ ∀ r ∈ db.rows, r.id < db.nextId

theorem selectById_insert (db : DB) (t : String) (d : Option String)
    (h : ∀ r ∈ db.rows, r.id < db.nextId) :
    selectById (insertTodo db t d).1 db.nextId = [mkRow db t d] := by
  have hnil : db.rows.filter (fun r => decide (r.id = db.nextId)) = [] := by
    rw [List.filter_eq_nil_iff]
    intro r hr
    simpa using Nat.ne_of_lt (h r hr)
  simp [selectById, insertTodo, List.filter_append, hnil, mkRow]

theorem filter_map_by_id (f : Todo → Todo) (i : Nat) (l : List Todo)
    (hn : (l.map Todo.id).Nodup) (r : Todo) (hr : r ∈ l) (hri : r.id = i)
    (hfi : (f r).id = i) (hf : ∀ s : Todo, s.id ≠ i → f s = s) :
    (l.map f).filter (fun s => decide (s.id = i)) = [f r] := by
  induction l with
  | nil => cases hr
  | cons a l ih =>
    rw [List.map_cons, List.nodup_cons] at hn
    rcases List.mem_cons.mp hr with h1 | h1
    · subst h1
      have htail : (l.map f).filter (fun s => decide (s.id = i)) = [] := by
        rw [List.filter_eq_nil_iff]
        intro s hs
        rcases List.mem_map.mp hs with ⟨s0, hs0, rfl⟩
        have hs0i : s0.id ≠ i := by
          intro hEq
          apply hn.1
          have hm : s0.id ∈ l.map Todo.id := List.mem_map_of_mem Todo.id hs0
          rwa [hEq, ← hri] at hm
        rw [hf s0 hs0i]
        simpa using hs0i
      simp [List.filter_cons, hfi, htail]
    · have hai : a.id ≠ i := by
        intro hEq
        apply hn.1
        have hm : r.id ∈ l.map Todo.id := List.mem_map_of_mem Todo.id h1
        rwa [hri, ← hEq] at hm
      simp [List.filter_cons, hf a hai, hai, ih hn.2 h1]

theorem filter_by_id_single (l : List Todo) (hn : (l.map Todo.id).Nodup) (r : Todo)
    (hr : r ∈ l) (i : Nat) (hri : r.id = i) :
    l.filter (fun s => decide (s.id = i)) = [r] := by
  have h := filter_map_by_id id i l hn r hr hri hri (fun s _ => rfl)
  simpa using h

theorem updateById_not_found (db : DB) (i : Nat) (t : String) (d : Option String)
    (c : Bool) (h : ∀ r ∈ db.rows, r.id ≠ i) : updateById db i t d c = (db, 0) := by
  have h1 : db.rows.map (fun r =>
      if r.id = i then { r with title := t, description := d, completed := c } else r) =
      db.rows := by
    calc db.rows.map (fun r =>
        if r.id = i then { r with title := t, description := d, completed := c } else r) =
        db.rows.map id := List.map_congr_left (fun r hr => if_neg (h r hr))
      _ = db.rows := List.map_id db.rows
  have h2 : db.rows.filter (fun r => decide (r.id = i)) = [] := by
    rw [List.filter_eq_nil_iff]
    intro r hr
    simp [h r hr]
  simp only [updateById, h1, h2, List.length_nil]

theorem deleteById_not_found (db : DB) (i : Nat)
    (h : ∀ r ∈ db.rows, r.id ≠ i) : deleteById db i = (db, 0) := by
  have h1 : db.rows.filter (fun r => decide (r.id ≠ i)) = db.rows := by
    rw [List.filter_eq_self]
    intro r hr
    simpa using h r hr
  have h2 : db.rows.filter (fun r => decide (r.id = i)) = [] := by
    rw [List.filter_eq_nil_iff]
    intro r hr
    simpa using h r hr
  simp only [deleteById, h1, h2, List.length_nil]

theorem deleteTodo_not_found (db : DB) (i : Nat)
    (h : ∀ r ∈ db.rows, r.id ≠ i) :
    deleteTodo db i [] = (⟨404, .errMsg "Tarea no encontrada" none⟩, db) := by
  simp [deleteTodo, deleteById_not_found db i h]

/-- C1: a POST /api/todos whose `title` is absent, or empty or whitespace-only
after trimming, yields HTTP 400 and no row is inserted: the stored state is
returned unchanged, whatever the description and fault schedule. -/
theorem create_blank_title_rejected (db : DB) (title? desc? : Option String)
    (faults : List (Option String))
    (h : title? = none ∨ ∃ t, title? = some t ∧ jsTrim t = "") :
    postTodos db title? desc? faults =
      (⟨400, .errMsg "El título es requerido" none⟩, db) := by
  rcases h with h | ⟨t, rfl, ht⟩
  · subst h; rfl
  · simp [postTodos, ht]

theorem create_blank_title_rejected_witness :
    postTodos ⟨[⟨1, "x", none, false, 0⟩], 2, 5⟩ (some "   ") (some "d") [] =
      (⟨400, .errMsg "El título es requerido" none⟩, ⟨[⟨1, "x", none, false, 0⟩], 2, 5⟩) :=
  create_blank_title_rejected _ _ _ _ (Or.inr ⟨"   ", rfl, by decide⟩)

/-- C3: GET /api/todos answers HTTP 200 with unchanged state and exactly the
rows of the table (a permutation: nothing filtered) ordered by `created_at`
descending, and an empty table yields the empty array. -/
theorem list_returns_rows_ordered (db : DB) :
    (getTodos db []).1.status = 200 ∧
    (getTodos db []).2 = db ∧
    (getTodos db []).1.body = .todos (selectAllOrderedDesc db) ∧
    List.Perm (selectAllOrderedDesc db) db.rows ∧
    List.Sorted createdDesc (selectAllOrderedDesc db) ∧
    (db.rows = [] → (getTodos db []).1 = ⟨200, .todos []⟩) :=
  ⟨rfl, rfl, rfl, List.perm_insertionSort createdDesc db.rows,
   List.sorted_insertionSort createdDesc db.rows,
   fun h => by simp [getTodos, selectAllOrderedDesc, h]⟩

theorem list_returns_rows_ordered_witness :
    DB.rows ⟨[], 1, 0⟩ = [] ∧ (getTodos ⟨[], 1, 0⟩ []).1 = ⟨200, .todos []⟩ :=
  ⟨rfl, (list_returns_rows_ordered ⟨[], 1, 0⟩).2.2.2.2.2 rfl⟩

/-- C5: a PUT /api/todos/:id with an id no stored row has yields HTTP 404 and
leaves the table unchanged. -/
theorem update_missing_id_404 (db : DB) (i : Nat) (t : String) (d : Option String)
    (c : Bool) (h : ∀ r ∈ db.rows, r.id ≠ i) :
    putTodo db i t d c [] = (⟨404, .errMsg "Tarea no encontrada" none⟩, db) := by
  simp [putTodo, updateById_not_found db i t d c h]

theorem update_missing_id_404_witness :
    putTodo ⟨[⟨1, "x", none, false, 0⟩], 2, 5⟩ 999 "t" none true [] =
      (⟨404, .errMsg "Tarea no encontrada" none⟩, ⟨[⟨1, "x", none, false, 0⟩], 2, 5⟩) :=
  update_missing_id_404 _ 999 _ _ _ (by decide)

theorem corsAllowed_eq_spec (o : Option String) :
    corsOriginAllowed o = isOriginAllowed o := by
  cases o with
  | none => rfl
  | some s => simp [corsOriginAllowed, isOriginAllowed, allowedOrigins, matchesRule,
      Bool.or_assoc]

/-- C9: the cors check equals the spec's pure `isOriginAllowed` (absent origin,
one of three exact strings, or a `.netlify.app` / `.vercel.app` suffix), and a
request whose origin that function rejects is answered by the middleware with
the CORS error, reaching no handler and leaving the state unchanged. -/
theorem cors_check_is_isOriginAllowed :
    (∀ o : Option String, corsOriginAllowed o = isOriginAllowed o) ∧
    (∀ (origin : Option String) (req : ApiRequest) (db : DB)
      (faults : List (Option String)), isOriginAllowed origin = false →
      serve origin req db faults = (.rejected "Not allowed by CORS", db)) :=
  ⟨corsAllowed_eq_spec, fun origin req db faults h => by
    simp [serve, corsAllowed_eq_spec origin, h]⟩

theorem cors_check_is_isOriginAllowed_witness :
    serve (some "https://evil.example.com") .list ⟨[], 1, 0⟩ [] =
      (.rejected "Not allowed by CORS", ⟨[], 1, 0⟩) :=
  cors_check_is_isOriginAllowed.2 (some "https://evil.example.com") .list ⟨[], 1, 0⟩ []
    (by decide)

/-- C2 counterexample: at a data-access failure with message "boom", every
handler's HTTP 500 body carries the error message in its `details` field, so
the details are not kept server-side only. -/
theorem error_details_leak_counterexample :
    (getTodos ⟨[], 1, 0⟩ [some "boom"]).1.status = 500 ∧
    RespBody.detailsOf (getTodos ⟨[], 1, 0⟩ [some "boom"]).1.body = some "boom" ∧
    RespBody.detailsOf (postTodos ⟨[], 1, 0⟩ (some "a") none [some "boom"]).1.body =
      some "boom" ∧
    RespBody.detailsOf (putTodo ⟨[], 1, 0⟩ 1 "t" none true [some "boom"]).1.body =
      some "boom" ∧
    RespBody.detailsOf (deleteTodo ⟨[], 1, 0⟩ 1 [some "boom"]).1.body = some "boom" := by
  decide

/-- C2 (amended): every data-access failure, at any handler and at either of
its queries, surfaces as HTTP 500 whose body carries the handler's generic
message together with the error's message in a `details` field. -/
theorem db_failure_500_with_details (db : DB) (e : String)
    (rest : List (Option String)) :
    getTodos db (some e :: rest) =
      (⟨500, .errMsg "Error al obtener tareas" (some e)⟩, db) ∧
    (∀ title desc?, jsTrim title ≠ "" →
      postTodos db (some title) desc? (some e :: rest) =
        (⟨500, .errMsg "Error al crear tarea" (some e)⟩, db)) ∧
    (∀ title desc?, jsTrim title ≠ "" →
      postTodos db (some title) desc? (none :: some e :: rest) =
        (⟨500, .errMsg "Error al crear tarea" (some e)⟩,
         (insertTodo db (jsTrim title) (descOrNull desc?)).1)) ∧
    (∀ i t d c, putTodo db i t d c (some e :: rest) =
      (⟨500, .errMsg "Error al actualizar tarea" (some e)⟩, db)) ∧
    (∀ i t d c, (updateById db i t d c).2 ≠ 0 →
      putTodo db i t d c (none :: some e :: rest) =
        (⟨500, .errMsg "Error al actualizar tarea" (some e)⟩,
         (updateById db i t d c).1)) ∧
    (∀ i, deleteTodo db i (some e :: rest) =
      (⟨500, .errMsg "Error al eliminar tarea" (some e)⟩, db)) := by
  refine ⟨rfl, ?_, ?_, fun i t d c => rfl, ?_, fun i => rfl⟩
  · intro title desc? h
    simp [postTodos, h]
  · intro title desc? h
    simp [postTodos, h, insertTodo]
  · intro i t d c h
    rcases hu : updateById db i t d c with ⟨db1, affected⟩
    rw [hu] at h
    simp only [Prod.snd] at h
    simp [putTodo, hu, h]

theorem db_failure_500_with_details_witness :
    putTodo ⟨[⟨1, "x", none, false, 0⟩], 2, 5⟩ 1 "y" none true [none, some "boom"] =
      (⟨500, .errMsg "Error al actualizar tarea" (some "boom")⟩,
       (updateById ⟨[⟨1, "x", none, false, 0⟩], 2, 5⟩ 1 "y" none true).1) :=
  (db_failure_500_with_details ⟨[⟨1, "x", none, false, 0⟩], 2, 5⟩ "boom" []).2.2.2.2.1
    1 "y" none true (by decide)

/-- C4 counterexample: with title "a" and a present, whitespace-only
description "   ", the created row stores description NULL, not the trimmed
description "". -/
theorem create_desc_not_trimmed_counterexample :
    (postTodos ⟨[], 1, 0⟩ (some "a") (some "   ") []).2.rows.map Todo.description =
      [none] ∧
    jsTrim "   " = "" ∧
    (none : Option String) ≠ some (jsTrim "   ") := by
  decide

theorem postTodos_ok (db : DB) (title : String) (desc? : Option String)
    (hws : ∀ r ∈ db.rows, r.id < db.nextId) (h : jsTrim title ≠ "") :
    postTodos db (some title) desc? [] =
      (⟨201, .todo (mkRow db (jsTrim title) (descOrNull desc?))⟩,
       (insertTodo db (jsTrim title) (descOrNull desc?)).1) := by
  have hsel := selectById_insert db (jsTrim title) (descOrNull desc?) hws
  simp only [insertTodo] at hsel
  simp [postTodos, h, insertTodo, hsel]

/-- C4 (amended): a POST whose title is non-empty after trimming inserts
exactly one row, carrying the trimmed title and the normalized description
(NULL when the field is absent or trims to the empty string, the trimmed
description otherwise), re-reads that row by the generated id and returns it
with HTTP 201. -/
theorem create_success_semantics (db : DB) (title : String) (desc? : Option String)
    (hwf : DB.Wf db) (h : jsTrim title ≠ "") :
    postTodos db (some title) desc? [] =
      (⟨201, .todo (mkRow db (jsTrim title) (descOrNull desc?))⟩,
       (insertTodo db (jsTrim title) (descOrNull desc?)).1) ∧
    (insertTodo db (jsTrim title) (descOrNull desc?)).1.rows =
      db.rows ++ [mkRow db (jsTrim title) (descOrNull desc?)] ∧
    selectById (insertTodo db (jsTrim title) (descOrNull desc?)).1 db.nextId =
      [mkRow db (jsTrim title) (descOrNull desc?)] ∧
    descOrNull none = none ∧
    (∀ d, jsTrim d = "" → descOrNull (some d) = none) ∧
    (∀ d, jsTrim d ≠ "" → descOrNull (some d) = some (jsTrim d)) := by
  refine ⟨postTodos_ok db title desc? hwf.2 h, rfl,
    selectById_insert db (jsTrim title) (descOrNull desc?) hwf.2, rfl, ?_, ?_⟩
  · intro d hd
    simp [descOrNull, hd]
  · intro d hd
    simp [descOrNull, hd]

theorem create_success_semantics_witness :
    postTodos ⟨[⟨1, "x", none, false, 0⟩], 2, 5⟩ (some " a ") (some "") [] =
      (⟨201, .todo ⟨2, "a", none, false, 5⟩⟩,
       ⟨[⟨1, "x", none, false, 0⟩, ⟨2, "a", none, false, 5⟩], 3, 6⟩) :=
  Eq.trans
    (create_success_semantics ⟨[⟨1, "x", none, false, 0⟩], 2, 5⟩ " a " (some "")
      ⟨by decide, by decide⟩ (by decide)).1
    (by decide)

/-- C6: DELETE /api/todos/:id answers HTTP 404 and leaves the table unchanged
when no row has the id; otherwise it removes exactly that row and answers
HTTP 204 with an empty body, after which the id appears in no listed row and
a second delete of the same id yields 404. -/
theorem delete_semantics (db : DB) (i : Nat) (hwf : DB.Wf db) :
    ((∀ r ∈ db.rows, r.id ≠ i) →
      deleteTodo db i [] = (⟨404, .errMsg "Tarea no encontrada" none⟩, db)) ∧
    (∀ r ∈ db.rows, r.id = i →
      (deleteTodo db i []).1 = ⟨204, .empty⟩ ∧
      List.Perm db.rows (r :: (deleteTodo db i []).2.rows) ∧
      (∀ s ∈ selectAllOrderedDesc (deleteTodo db i []).2, s.id ≠ i) ∧
      deleteTodo (deleteTodo db i []).2 i [] =
        (⟨404, .errMsg "Tarea no encontrada" none⟩, (deleteTodo db i []).2)) := by
  constructor
  · exact fun h => deleteTodo_not_found db i h
  · intro r hr hri
    have hfind : db.rows.filter (fun s => decide (s.id = i)) = [r] :=
      filter_by_id_single db.rows hwf.1 r hr i hri
    have hdel : deleteTodo db i [] =
        (⟨204, .empty⟩,
         { db with rows := db.rows.filter (fun s => decide (s.id ≠ i)) }) := by
      simp [deleteTodo, deleteById, hfind]
    have hrest : ∀ s ∈ db.rows.filter (fun s => decide (s.id ≠ i)), s.id ≠ i := by
      intro s hs
      simpa using List.of_mem_filter hs
    rw [hdel]
    refine ⟨rfl, ?_, ?_, deleteTodo_not_found _ i hrest⟩
    · have hperm := List.filter_append_perm (fun s => decide (s.id = i)) db.rows
      rw [hfind] at hperm
      have hpred : db.rows.filter (fun a => !decide (a.id = i)) =
          db.rows.filter (fun a => decide (a.id ≠ i)) := by
        apply List.filter_congr
        intro a _
        simp [decide_not]
      rw [hpred] at hperm
      exact hperm.symm
    · intro s hs
      have hmem : s ∈ db.rows.filter (fun a => decide (a.id ≠ i)) := by
        simpa [selectAllOrderedDesc] using hs
      exact hrest s hmem

theorem delete_semantics_witness :
    (deleteTodo ⟨[⟨1, "x", none, false, 0⟩, ⟨2, "y", some "d", true, 1⟩], 3, 7⟩ 1 []).1 =
      ⟨204, .empty⟩ ∧
    deleteTodo
        (deleteTodo ⟨[⟨1, "x", none, false, 0⟩, ⟨2, "y", some "d", true, 1⟩], 3, 7⟩ 1 []).2
        1 [] =
      (⟨404, .errMsg "Tarea no encontrada" none⟩,
       (deleteTodo ⟨[⟨1, "x", none, false, 0⟩, ⟨2, "y", some "d", true, 1⟩], 3, 7⟩ 1 []).2) := by
  have h := (delete_semantics ⟨[⟨1, "x", none, false, 0⟩, ⟨2, "y", some "d", true, 1⟩], 3, 7⟩
    1 ⟨by decide, by decide⟩).2 ⟨1, "x", none, false, 0⟩ (by decide) rfl
  exact ⟨h.1, h.2.2.2⟩

/-- C7 counterexample: creating with title "a" and the present, whitespace-only
description "   " and then listing shows a NULL description, not the submitted
(trimmed) description "". -/
theorem listed_desc_not_submitted_counterexample :
    (selectAllOrderedDesc (postTodos ⟨[], 1, 0⟩ (some "a") (some "   ") []).2).map
      Todo.description = [none] ∧
    (none : Option String) ≠ some (jsTrim "   ") := by
  decide

/-- C7 (amended): creating a Todo whose title is non-empty after trimming, then
listing, includes the created row exactly once, with `completed = false`, the
trimmed submitted title and the normalized submitted description (trimmed;
NULL when absent or blank after trimming). -/
theorem create_then_list_once (db : DB) (title : String) (desc? : Option String)
    (hwf : DB.Wf db) (h : jsTrim title ≠ "") :
    (postTodos db (some title) desc? []).1 =
      ⟨201, .todo (mkRow db (jsTrim title) (descOrNull desc?))⟩ ∧
    (selectAllOrderedDesc (postTodos db (some title) desc? []).2).count
      (mkRow db (jsTrim title) (descOrNull desc?)) = 1 ∧
    (mkRow db (jsTrim title) (descOrNull desc?)).completed = false ∧
    (mkRow db (jsTrim title) (descOrNull desc?)).title = jsTrim title ∧
    (mkRow db (jsTrim title) (descOrNull desc?)).description = descOrNull desc? := by
  have hpost := postTodos_ok db title desc? hwf.2 h
  have hnm : mkRow db (jsTrim title) (descOrNull desc?) ∉ db.rows := by
    intro hm
    exact Nat.lt_irrefl db.nextId (hwf.2 _ hm)
  refine ⟨by rw [hpost], ?_, rfl, rfl, rfl⟩
  rw [hpost]
  simp only [selectAllOrderedDesc, insertTodo]
  rw [List.Perm.count_eq (List.perm_insertionSort createdDesc _)]
  rw [List.count_append, List.count_eq_zero.mpr hnm]
  simp

theorem create_then_list_once_witness :
    (postTodos ⟨[⟨1, "x", none, false, 0⟩], 2, 5⟩ (some " b ") (some " d ") []).1 =
      ⟨201, .todo ⟨2, "b", some "d", false, 5⟩⟩ ∧
    (selectAllOrderedDesc
        (postTodos ⟨[⟨1, "x", none, false, 0⟩], 2, 5⟩ (some " b ") (some " d ") []).2).count
      ⟨2, "b", some "d", false, 5⟩ = 1 := by
  have h := create_then_list_once ⟨[⟨1, "x", none, false, 0⟩], 2, 5⟩ " b " (some " d ")
    ⟨by decide, by decide⟩ (by decide)
  have hm : mkRow (⟨[⟨1, "x", none, false, 0⟩], 2, 5⟩ : DB) (jsTrim " b ")
      (descOrNull (some " d ")) = ⟨2, "b", some "d", false, 5⟩ := by decide
  exact ⟨hm ▸ h.1, hm ▸ h.2.1⟩

theorem updateById_member (db : DB) (r : Todo) (hn : (db.rows.map Todo.id).Nodup)
    (hr : r ∈ db.rows) (t : String) (d : Option String) (c : Bool) :
    selectById (updateById db r.id t d c).1 r.id =
      [{ r with title := t, description := d, completed := c }] ∧
    (updateById db r.id t d c).2 ≠ 0 := by
  have hfr : (if r.id = r.id then
      ({ r with title := t, description := d, completed := c } : Todo) else r) =
      { r with title := t, description := d, completed := c } := if_pos rfl
  constructor
  · have h := filter_map_by_id
      (fun s => if s.id = r.id then
        { s with title := t, description := d, completed := c } else s)
      r.id db.rows hn r hr rfl (by simp) (fun s hs => if_neg hs)
    simp only [hfr] at h
    simpa [selectById, updateById] using h
  · have hmem : r ∈ db.rows.filter (fun s => decide (s.id = r.id)) :=
      List.mem_filter.mpr ⟨hr, by simp⟩
    intro h0
    simp only [updateById] at h0
    rw [List.length_eq_zero] at h0
    rw [h0] at hmem
    exact List.not_mem_nil r hmem

/-- C8: for a stored row, the client's toggle-complete PUT (sending the row's
own title and description with `completed` negated) succeeds with HTTP 200
and returns the row with `completed` negated, and re-reading the row by id
shows the negated `completed` with title and description unchanged. -/
theorem toggle_complete_preserves_fields (db : DB) (r : Todo) (hwf : DB.Wf db)
    (hr : r ∈ db.rows) :
    dispatch (toggleCompleteRequest r) db [] =
      (⟨200, .todo { r with completed := !r.completed }⟩,
       (updateById db r.id r.title r.description (!r.completed)).1) ∧
    selectById (updateById db r.id r.title r.description (!r.completed)).1 r.id =
      [{ r with completed := !r.completed }] ∧
    ({ r with completed := !r.completed } : Todo).title = r.title ∧
    ({ r with completed := !r.completed } : Todo).description = r.description ∧
    ({ r with completed := !r.completed } : Todo).completed = (!r.completed) := by
  have hm := updateById_member db r hwf.1 hr r.title r.description (!r.completed)
  rcases hu : updateById db r.id r.title r.description (!r.completed) with ⟨db1, affected⟩
  rw [hu] at hm
  have hsel : selectById db1 r.id = [{ r with completed := !r.completed }] := by
    simpa using hm.1
  have haff : affected ≠ 0 := by simpa using hm.2
  refine ⟨?_, by simpa using hm.1, rfl, rfl, rfl⟩
  simp [dispatch, toggleCompleteRequest, putTodo, hu, haff, hsel]

theorem toggle_complete_preserves_fields_witness :
    dispatch (toggleCompleteRequest ⟨1, "x", some "d", false, 0⟩)
        ⟨[⟨1, "x", some "d", false, 0⟩], 2, 5⟩ [] =
      (⟨200, .todo ⟨1, "x", some "d", true, 0⟩⟩,
       ⟨[⟨1, "x", some "d", true, 0⟩], 2, 5⟩) := by
  have h := (toggle_complete_preserves_fields ⟨[⟨1, "x", some "d", false, 0⟩], 2, 5⟩
    ⟨1, "x", some "d", false, 0⟩ ⟨by decide, by decide⟩ (by decide)).1
  exact Eq.trans h (by decide)

/-- C10 counterexample: a PUT carrying description "" stores the empty
string, so "a stored description is never the empty string" fails for the
table as a whole: the update path writes the field unvalidated. -/
theorem stored_empty_description_counterexample :
    (putTodo ⟨[⟨1, "t", none, false, 0⟩], 2, 5⟩ 1 "t" (some "") true []).2.rows.map
      Todo.description = [some ""] := by
  decide

/-- C10 (amended): a POST whose description is present but empty or
whitespace-only after trimming stores NULL, and the create path never stores
an empty-string description: the description-normalization never yields "",
and creation preserves the invariant that no stored description is the empty
string (an unvalidated PUT can still store one). -/
theorem create_never_stores_empty_description (db : DB) (title : String)
    (d : String) (hwf : DB.Wf db) (hd : jsTrim d = "")
    (hinv : ∀ r ∈ db.rows, r.description ≠ some "") :
    descOrNull (some d) = none ∧
    (∀ desc?, descOrNull desc? ≠ some "") ∧
    (∀ r ∈ (postTodos db (some title) (some d) []).2.rows,
      r.description ≠ some "") := by
  have hnorm : ∀ desc? : Option String, descOrNull desc? ≠ some "" := by
    intro desc?
    cases desc? with
    | none => simp [descOrNull]
    | some d0 =>
      by_cases h0 : jsTrim d0 = ""
      · simp [descOrNull, h0]
      · simp [descOrNull, h0]
  refine ⟨by simp [descOrNull, hd], hnorm, ?_⟩
  intro r hr
  by_cases ht : jsTrim title = ""
  · simp only [postTodos, if_pos ht] at hr
    exact hinv r hr
  · rw [postTodos_ok db title (some d) hwf.2 ht] at hr
    simp only [insertTodo] at hr
    rcases List.mem_append.mp hr with hold | hnew
    · exact hinv r hold
    · rw [List.mem_singleton.mp hnew]
      exact hnorm (some d)

theorem create_never_stores_empty_description_witness :
    descOrNull (some "   ") = none ∧
    Todo.description ⟨2, "a", none, false, 5⟩ ≠ some "" := by
  have h := create_never_stores_empty_description ⟨[⟨1, "x", some "y", false, 0⟩], 2, 5⟩
    "a" "   " ⟨by decide, by decide⟩ (by decide) (by decide)
  exact ⟨h.1, h.2.2 ⟨2, "a", none, false, 5⟩ (by decide)⟩
